import Mathlib

/-!
Verification development for the SHARAD processing library
(`utils.py`, `raw.py`, `_params.py`).

The numeric code operates elementwise on numpy float arrays, where three
classes of values matter to the specification: ordinary numbers, the
missing-data sentinel `nan`, and `-inf` (produced by `log10(0)`).  We embed
such values as `FVal α` over an ordered field `α` (instantiated at `ℚ` for
executable checks and at `ℝ` for the exact numeric scenarios); the
transcendental operations (`log10`, `10 ** x`) and the constant `pi` are
passed as explicit parameters, instantiated with `Real.logb 10`,
`Real.rpow 10` and `Real.pi` where a claim depends on their real values.
Machine floating point rounding is not modelled; the claims under study are
about control flow, sentinel propagation, shapes and exact arithmetic
identities.
-/

/-- Embedded float value: an ordinary number, numpy's `nan`, or `-inf`
(`+inf` never arises in the modelled code paths). -/
inductive FVal (α : Type) where
  | num : α → FVal α
  | nan : FVal α
  | neginf : FVal α
deriving DecidableEq

namespace FVal

variable {α : Type} [LinearOrderedField α]

/-- The mask `val == 0` followed by assignment of `nan`
(`utils.py` line 36: `val[np.where(val == 0)] = np.nan`), elementwise. -/
def zeroToNan : FVal α → FVal α
  | num x => if x = 0 then nan else num x
  | nan => nan
  | neginf => neginf

/-- Elementwise `np.log10`: positive numbers map to their base-10 logarithm
(supplied as the parameter `log10p`), `0` maps to `-inf`, negative numbers,
`nan` and `-inf` map to `nan`. -/
def log10 (log10p : α → α) : FVal α → FVal α
  | num x => if 0 < x then num (log10p x) else if x = 0 then neginf else nan
  | nan => nan
  | neginf => nan

/-- Multiplication by a positive scalar constant (the code multiplies by
`10`, `20` and `8 * pi` only, all positive): numbers scale, `nan` and
`-inf` are fixed. -/
def scalePos (c : α) : FVal α → FVal α
  | num x => num (c * x)
  | nan => nan
  | neginf => neginf

/-- Elementwise float addition: `nan` absorbs, `-inf` plus anything
non-`nan` is `-inf`. -/
def add : FVal α → FVal α → FVal α
  | nan, _ => nan
  | num _, nan => nan
  | neginf, nan => nan
  | neginf, num _ => neginf
  | neginf, neginf => neginf
  | num _, neginf => neginf
  | num x, num y => num (x + y)

/-- Float comparison `v < c` against a numeric constant: `nan` compares
false, `-inf` compares true. -/
def ltc (v : FVal α) (c : α) : Bool :=
  match v with
  | num x => decide (x < c)
  | nan => false
  | neginf => true

/-- Float comparison `v > c` against a numeric constant: `nan` and `-inf`
compare false. -/
def gtc (v : FVal α) (c : α) : Bool :=
  match v with
  | num x => decide (c < x)
  | nan => false
  | neginf => false

/-- Binary maximum with numpy `ndarray.max` semantics: `nan` propagates,
`-inf` is the identity on non-`nan` values. -/
def fmax : FVal α → FVal α → FVal α
  | nan, _ => nan
  | num _, nan => nan
  | neginf, nan => nan
  | neginf, num y => num y
  | neginf, neginf => neginf
  | num x, neginf => num x
  | num x, num y => num (max x y)

/-- The `.max()` reduction of a 1-D selection; numpy raises on an empty
selection, which the caller catches and turns into `nan`, so the empty
case is mapped to `nan` here as well. -/
def maxList : List (FVal α) → FVal α
  | [] => nan
  | v :: rest => rest.foldl fmax v

/-- Elementwise `10 ** (v / 20)` (`utils.py` line 162): `nan` propagates
and `10 ** -inf = 0`. -/
def amp10 (exp10 : α → α) : FVal α → FVal α
  | num x => num (exp10 (x / 20))
  | nan => nan
  | neginf => num 0

end FVal

section Calibration

variable {α : Type} [LinearOrderedField α]

/-- Two-way geometric spreading loss `20 * np.log10(8 * np.pi * rng)`
(`utils.py` line 40), elementwise on one range value. -/
def geoLoss (log10p : α → α) (pi : α) (g : FVal α) : FVal α :=
  FVal.scalePos 20 (FVal.log10 log10p (FVal.scalePos (8 * pi) g))

/-- Embedding of `calibration` (`utils.py` lines 20-43).  The first
component of the result is the final state of the caller's `val` array:
line 36 masks exact zeros to `nan` in place, and line 38 rebinds the local
name to a fresh array, so the caller observes exactly the zero-masking.
The second component is the returned calibrated array
`10*log10(val) + abs_calib + geometric_loss`, where the loss term is the
scalar `0` when no range is supplied (`rng = False`) and the elementwise
array loss otherwise.  The unused `wl` parameter of the source is omitted.
numpy raises on a length mismatch between `val` and a supplied `rng`
instead of truncating; all call sites in the source use equal lengths, and
the theorems below carry that hypothesis where it matters. -/
def calibration (log10p : α → α) (pi : α) (absCalib : α)
    (val : List (FVal α)) (rng : Option (List (FVal α))) :
    List (FVal α) × List (FVal α) :=
  let val1 := val.map FVal.zeroToNan
  let val2 := val1.map (fun v => FVal.scalePos 10 (FVal.log10 log10p v))
  let out :=
    match rng with
    | none => val2.map (fun v => FVal.add (FVal.add v (FVal.num absCalib)) (FVal.num 0))
    | some r =>
        List.zipWith
          (fun v g => FVal.add (FVal.add v (FVal.num absCalib)) (geoLoss log10p pi g))
          val2 r
  (val1, out)

end Calibration

section PickExtraction

variable {α : Type} [LinearOrderedField α]

/-- Normalisation of an integer index against an axis of length `C`, with
python semantics: negative indices wrap once, anything else out of range
raises (`none`). -/
def normIdx (C : ℕ) (x : ℤ) : Option ℕ :=
  if 0 ≤ x then (if x < C then some x.toNat else none)
  else (if 0 ≤ x + C then some (x + C).toNat else none)

/-- Normalisation of a python slice bound against an axis of length `R`:
negative bounds wrap once and clamp at `0`, nonnegative bounds clamp
at `R`. -/
def sliceBound (R : ℕ) (a : ℤ) : ℕ :=
  if a < 0 then (max (R + a) 0).toNat else min a.toNat R

/-- Embedding of `rpb[a:b, x].max()` under the bare `try/except` of
`get_pik` (`utils.py` lines 71-74): a column index that raises, or an
empty normalised slice (whose `.max()` raises `ValueError`), yields `nan`;
otherwise the `nan`-propagating maximum of the selected rows. -/
def windowMax (R C : ℕ) (mat : ℕ → ℕ → FVal α) (a b : ℤ) (x : ℤ) : FVal α :=
  match normIdx C x with
  | none => FVal.nan
  | some c =>
      let lo := sliceBound R a
      let hi := sliceBound R b
      if lo < hi then FVal.maxList ((List.range (hi - lo)).map (fun k => mat (lo + k) c))
      else FVal.nan

/-- Embedding of the fancy-indexing assignment `out[x] = echo`
(`utils.py` line 77): sequential writes, last write wins, negative frame
indices wrap, out-of-range frame indices raise (`none`). -/
def scatter (C : ℕ) (out : List (FVal α)) : List (ℤ × FVal α) → Option (List (FVal α))
  | [] => some out
  | (x, e) :: rest =>
      match normIdx C x with
      | some j => scatter C (out.set j e) rest
      | none => none

/-- Embedding of `get_pik` (`utils.py` lines 46-79) for one orbit.
`R` and `C` are the delay-sample and along-track dimensions of the
waveform matrix `mat` (`rpb.shape`), and `picks` lists the reader's pick
records as integer pairs `(frame - 1, round(delay_pixel) - 1)` — the
quantities `x` and `z` computed on lines 64-66 (the values are integral
floats in the source).  `mem` models the contents of the uninitialised
output array `np.empty(rpb.shape[1])` of line 76: `np.empty` leaves
whatever bytes the allocator returns, so the unpicked entries of the
result are `mem`'s values, not any fixed default. -/
def get_pik (R C : ℕ) (mat : ℕ → ℕ → FVal α) (picks : List (ℤ × ℤ))
    (mem : ℕ → FVal α) : Option (List (FVal α)) :=
  let echo := picks.map (fun p => windowMax R C mat (p.2 - 2) (p.2 + 2) p.1)
  scatter C ((List.range C).map (fun j => mem j)) (List.zip (picks.map Prod.fst) echo)

end PickExtraction

section TelemetryResampling

variable {α : Type} [LinearOrderedField α]

/-- Modelled from the spec: `np.linspace(a, b, M)` with `endpoint=True`
places sample `i` at `a + i * (b - a) / (M - 1)` (`M ≥ 2`; numpy is an
external collaborator of the repository, so the formula is taken from the
spec's affine-rescale description). -/
def linspace (a b : α) (M : ℕ) (i : ℕ) : α :=
  a + (i : α) * (b - a) / ((M : α) - 1)

/-- Modelled from the spec: scipy's `splrep(x, y, s=0)` followed by
`splev(t, tck)` — the smoothing-free spline of the external interpolation
library, whose specified property is that the fitted curve passes through
every control point `(x i, y i)` exactly.  The nodes are
`x i = linspace 0 (N-1) M i`, as in `get_aux` (`utils.py` line 93).  At a
node the model returns the control value; off the nodes the spec fixes no
particular value and the claims evaluate none, so the model returns `0`
there. -/
def splevModel (N M : ℕ) (y : ℕ → α) (t : α) : α :=
  match (List.range M).find? (fun i => decide (linspace 0 ((N : α) - 1) M i = t)) with
  | some i => y i
  | none => 0

/-- One resampled channel of `get_aux`: the channel `y` (M native samples)
evaluated at the dense targets `xnew = np.arange(C)`
(`utils.py` lines 92-99). -/
def resample (C M : ℕ) (y : ℕ → α) : List α :=
  (List.range C).map (fun j => splevModel C M y ((j : ℕ) : α))

/-- Native telemetry table (`raw.read_aux` output): `M` is the native
sample count (`aux.UTC.size`) and each channel maps a native index to its
value. -/
structure AuxNative (α : Type) where
  M : ℕ
  lon : ℕ → α
  lat : ℕ → α
  radius : ℕ → α
  vtan : ℕ → α
  vrad : ℕ → α
  sza : ℕ → α
  pitch : ℕ → α
  yaw : ℕ → α
  roll : ℕ → α
  mag : ℕ → α
  HGAout : ℕ → α
  HGAin : ℕ → α
  sun_dist : ℕ → α

/-- Resampled telemetry table returned by `get_aux` (`utils.py`
lines 135-138): thirteen interpolated channels plus the derived range. -/
structure AuxTable (α : Type) where
  lat : List α
  lon : List α
  radius : List α
  vtan : List α
  vrad : List α
  sza : List α
  pitch : List α
  yaw : List α
  roll : List α
  mag : List α
  HGAout : List α
  HGAin : List α
  sun_dist : List α
  rng : List α
deriving DecidableEq

/-- Embedding of `get_aux` (`utils.py` lines 82-138).  `C` is the
along-track length `rpb.shape[1]`; `lonlat2rad` is the external ellipsoid
lookup `ellipsoid.lonlat2rad(lon, lat, mars.radius)` (an opaque pure
function per the spec); the derived range is
`radius * 1e3 - lonlat2rad(lon, lat)` elementwise (line 133). -/
def get_aux (C : ℕ) (aux : AuxNative α) (lonlat2rad : α → α → α) : AuxTable α :=
  let lon := resample C aux.M aux.lon
  let lat := resample C aux.M aux.lat
  let radius := resample C aux.M aux.radius
  let rng := List.zipWith (fun r s => r * 1000 - s) radius (List.zipWith lonlat2rad lon lat)
  { lat := lat
    lon := lon
    radius := radius
    vtan := resample C aux.M aux.vtan
    vrad := resample C aux.M aux.vrad
    sza := resample C aux.M aux.sza
    pitch := resample C aux.M aux.pitch
    yaw := resample C aux.M aux.yaw
    roll := resample C aux.M aux.roll
    mag := resample C aux.M aux.mag
    HGAout := resample C aux.M aux.HGAout
    HGAin := resample C aux.M aux.HGAin
    sun_dist := resample C aux.M aux.sun_dist
    rng := rng }

end TelemetryResampling

section Orchestrator

variable {α : Type} [LinearOrderedField α]

/-- The band screening of `get_srf` (`utils.py` lines 160-161): first
`pdb[np.where(pdb < -200)] = np.nan`, then `pdb[np.where(pdb > 10)] = np.nan`,
elementwise with float comparison semantics (`nan` compares false). -/
def bandScreen (pdb : List (FVal α)) : List (FVal α) :=
  (pdb.map (fun v => if FVal.ltc v (-200) then FVal.nan else v)).map
    (fun v => if FVal.gtc v 10 then FVal.nan else v)

/-- Band screening followed by conversion to linear amplitude
`amp = 10**(pdb/20.)` (`utils.py` lines 160-162). -/
def srfAmp (exp10 : α → α) (pdb : List (FVal α)) : List (FVal α) :=
  (bandScreen pdb).map (FVal.amp10 exp10)

/-- The aligned per-orbit table returned by `get_srf`: the resampled
telemetry table with the calibrated amplitude attached as the column
`amp` (`utils.py` line 164). -/
structure SrfTable (α : Type) where
  aux : AuxTable α
  amp : List (FVal α)
deriving DecidableEq

/-- File outputs of the pipeline, keyed by orbit id: the aligned-track
text file written by `get_srf`, and the statistics text file and plot
image written by `inline_rsr`. -/
inductive WriteEvent where
  | srf : String → WriteEvent
  | stats : String → WriteEvent
  | plotImg : String → WriteEvent
deriving DecidableEq

/-- Embedding of `get_srf` (`utils.py` lines 142-170): resample the
telemetry, extract the picked echoes, calibrate against the derived range,
band-screen, convert to linear amplitude, attach the column, and persist
the aligned-track file when `save` is true.  A pick whose frame index is
out of range aborts the run (`none`), as the uncaught `IndexError` does in
the source.  The result pairs the returned table with the list of file
writes performed. -/
def get_srf (R C : ℕ) (mat : ℕ → ℕ → FVal α) (picks : List (ℤ × ℤ))
    (mem : ℕ → FVal α) (auxN : AuxNative α) (lonlat2rad : α → α → α)
    (log10p : α → α) (pi : α) (absCalib : α) (exp10 : α → α)
    (orbit : String) (save : Bool) :
    Option (SrfTable α × List WriteEvent) :=
  let aux := get_aux C auxN lonlat2rad
  match get_pik R C mat picks mem with
  | none => none
  | some pik =>
      let pdb := (calibration log10p pi absCalib pik (some (aux.rng.map FVal.num))).2
      some ({ aux := aux, amp := srfAmp exp10 pdb },
            if save then [WriteEvent.srf orbit] else [])

/-- Output of `inline_rsr`: the external estimator's table `b` (opaque
payload of type `β` plus its window positions `xo`) with the geolocation
columns attached back from the aligned track (`utils.py` lines 203-208). -/
structure RsrTable (α : Type) (β : Type) where
  base : β
  xo : List ℕ
  lat : List α
  lon : List α
  roll : List α
  rng : List α
  sza : List α
deriving DecidableEq

/-- Embedding of `inline_rsr` (`utils.py` lines 173-216).  Line 201 calls
`get_srf(orbit, save=True)` with persistence hardcoded on; the external
estimator `rsr.utils.inline_estim` is the opaque parameter `estim`
returning its payload and the rounded window positions `xo`; the `.ix`
column attachments read the aligned track at those positions; and only
when the `save` keyword is true are the statistics file and the plot
image written (lines 210-215). -/
def inline_rsr {β : Type} (R C : ℕ) (mat : ℕ → ℕ → FVal α) (picks : List (ℤ × ℤ))
    (mem : ℕ → FVal α) (auxN : AuxNative α) (lonlat2rad : α → α → α)
    (log10p : α → α) (pi : α) (absCalib : α) (exp10 : α → α)
    (estim : List (FVal α) → β × List ℕ)
    (orbit : String) (save : Bool) :
    Option (RsrTable α β × List WriteEvent) :=
  match get_srf R C mat picks mem auxN lonlat2rad log10p pi absCalib exp10 orbit true with
  | none => none
  | some (srf, w) =>
      let be := estim srf.amp
      let b : RsrTable α β :=
        { base := be.1
          xo := be.2
          lat := be.2.map (fun j => srf.aux.lat.getD j 0)
          lon := be.2.map (fun j => srf.aux.lon.getD j 0)
          roll := be.2.map (fun j => srf.aux.roll.getD j 0)
          rng := be.2.map (fun j => srf.aux.rng.getD j 0)
          sza := be.2.map (fun j => srf.aux.sza.getD j 0) }
      some (b, w ++ (if save then [WriteEvent.stats orbit, WriteEvent.plotImg orbit] else []))

end Orchestrator

section Helpers

variable {α : Type} [LinearOrderedField α]

lemma scatter_length {C : ℕ} {out r : List (FVal α)} {ps : List (ℤ × FVal α)}
    (h : scatter C out ps = some r) : r.length = out.length := by
  induction ps generalizing out with
  | nil =>
      simp only [scatter, Option.some_inj] at h
      rw [← h]
  | cons p rest ih =>
      obtain ⟨x, e⟩ := p
      simp only [scatter] at h
      cases hn : normIdx C x with
      | none => rw [hn] at h; exact Option.noConfusion h
      | some j =>
          rw [hn] at h
          have := ih h
          simpa using this

lemma scatter_getElem?_untouched {C : ℕ} {out r : List (FVal α)} {ps : List (ℤ × FVal α)}
    {j : ℕ} (hj : ∀ p ∈ ps, normIdx C p.1 ≠ some j)
    (h : scatter C out ps = some r) : r[j]? = out[j]? := by
  induction ps generalizing out with
  | nil =>
      simp only [scatter, Option.some_inj] at h
      rw [← h]
  | cons p rest ih =>
      obtain ⟨x, e⟩ := p
      simp only [scatter] at h
      cases hn : normIdx C x with
      | none => rw [hn] at h; exact Option.noConfusion h
      | some j' =>
          rw [hn] at h
          have hne : j' ≠ j := by
            intro hc
            exact (hj (x, e) (List.mem_cons_self _ _)) (hc ▸ hn)
          have := ih (fun p hp => hj p (List.mem_cons_of_mem _ hp)) h
          rw [this, List.getElem?_set_ne hne]

lemma scatter_getElem?_last {C : ℕ} {out r : List (FVal α)} {ps : List (ℤ × FVal α)}
    {i j : ℕ} {x : ℤ} {e : FVal α}
    (hp : ps[i]? = some (x, e)) (hx : normIdx C x = some j)
    (hafter : ∀ k, i < k → ∀ q : ℤ × FVal α, ps[k]? = some q → normIdx C q.1 ≠ some j)
    (hjlen : j < out.length)
    (h : scatter C out ps = some r) : r[j]? = some e := by
  induction ps generalizing out i with
  | nil => exact Option.noConfusion hp
  | cons p rest ih =>
      obtain ⟨x', e'⟩ := p
      cases i with
      | zero =>
          have hpe : (x', e') = (x, e) := by simpa using hp
          have hx' : x' = x := congrArg Prod.fst hpe
          have he' : e' = e := congrArg Prod.snd hpe
          simp only [scatter] at h
          rw [hx', hx] at h
          have huntouched : r[j]? = (out.set j e')[j]? := by
            apply scatter_getElem?_untouched ?_ h
            intro q hq
            obtain ⟨k, hk⟩ := List.getElem?_of_mem hq
            exact hafter (k + 1) (Nat.succ_pos k) q (by simpa using hk)
          rw [huntouched, List.getElem?_set_self (by simpa using hjlen), he']
      | succ i' =>
          simp only [scatter] at h
          cases hn : normIdx C x' with
          | none => rw [hn] at h; exact Option.noConfusion h
          | some j' =>
              rw [hn] at h
              refine ih (by simpa using hp) ?_ (by simpa using hjlen) h
              intro k hk q hq
              exact hafter (k + 1) (by omega) q (by simpa using hq)

lemma find?_range_eq_some {M i : ℕ} {p : ℕ → Bool} (hiM : i < M) (hp : p i = true)
    (hmin : ∀ j, j < i → p j = false) : (List.range M).find? p = some i := by
  induction M with
  | zero => omega
  | succ m ih =>
      rw [List.range_succ, List.find?_append]
      rcases Nat.lt_or_ge i m with hlt | hge
      · rw [ih hlt]; rfl
      · have hnone : (List.range m).find? p = none := by
          rw [List.find?_eq_none]
          intro y hy
          have : y < m := List.mem_range.mp hy
          simp [hmin y (by omega)]
        rw [hnone]
        have hpm : p m = true := by
          have him : i = m := by omega
          rw [← him]
          exact hp
        simp [List.find?_cons, hpm]
        omega

lemma splevModel_node {N M : ℕ} (y : ℕ → α) {i : ℕ} (hM : 2 ≤ M) (hN : 2 ≤ N)
    (hiM : i < M) :
    splevModel N M y (linspace 0 ((N : α) - 1) M i) = y i := by
  have hMa : (2 : α) ≤ (M : α) := by exact_mod_cast hM
  have hNa : (2 : α) ≤ (N : α) := by exact_mod_cast hN
  have hMne : ((M : α) - 1) ≠ 0 := by linarith
  have hNne : ((N : α) - 1) ≠ 0 := by linarith
  unfold splevModel
  rw [find?_range_eq_some hiM (decide_eq_true rfl) ?_]
  intro j hj
  apply decide_eq_false
  intro he
  unfold linspace at he
  rw [zero_add, zero_add] at he
  have h1 := congrArg (fun t => t * ((M : α) - 1)) he
  simp only [div_mul_cancel₀ _ hMne] at h1
  have hsub : ((N : α) - 1 - 0) ≠ 0 := by simpa using hNne
  have h2 : (j : α) = (i : α) := mul_right_cancel₀ hsub h1
  have : j = i := by exact_mod_cast h2
  omega

end Helpers

section ClaimC4

variable {α : Type} [LinearOrderedField α]

/-- Claim C4 (confirmed): for every input sequence to `calibration`, every
entry exactly equal to zero yields a missing (`nan`) calibrated value —
in particular never `-inf` — regardless of the range and `abs_calib`
arguments (the hypothesis `hlen` reflects that numpy raises on a
length-mismatched range array instead of producing any output). -/
theorem c4_zero_yields_nan (log10p : α → α) (pi absCalib : α)
    (val : List (FVal α)) (rng : Option (List (FVal α))) (i : ℕ)
    (hlen : rng = none ∨ ∃ r, rng = some r ∧ r.length = val.length)
    (h0 : val[i]? = some (FVal.num 0)) :
    (calibration log10p pi absCalib val rng).2[i]? = some FVal.nan := by
  have hi : i < val.length := by
    by_contra hcon
    rw [List.getElem?_eq_none (by omega)] at h0
    exact Option.noConfusion h0
  rcases hlen with h | ⟨r, hr, hlr⟩
  · subst h
    simp only [calibration, List.getElem?_map, h0, Option.map_some']
    simp [FVal.zeroToNan, FVal.log10, FVal.scalePos, FVal.add]
  · subst hr
    have hg : r[i]? = some (r.get ⟨i, by omega⟩) := by
      rw [List.getElem?_eq_getElem (by omega)]
      simp
    simp only [calibration, List.getElem?_zipWith, List.getElem?_map, h0,
      Option.map_some', hg]
    simp [FVal.zeroToNan, FVal.log10, FVal.scalePos, FVal.add]

/-- Witness for C4 at a concrete input: raw value `0` with no range and
`abs_calib = 5` calibrates to `nan`. -/
theorem c4_zero_yields_nan_witness :
    (calibration (α := ℚ) (fun x => x) 0 5 [FVal.num 0] none).2[0]? = some FVal.nan :=
  c4_zero_yields_nan (fun x => x) 0 5 [FVal.num 0] none 0 (Or.inl rfl) (by decide)

end ClaimC4

section ClaimC9

variable {α : Type} [LinearOrderedField α]

/-- Claim C9 (confirmed): `calibration` mutates its `val` argument in
place — after any call, every entry of the caller's array that was exactly
zero has been overwritten with `nan`, every other entry is unchanged, and
an array containing a zero is therefore not left unchanged.  The first
component of the embedded `calibration` is the caller-visible final state
of the argument array. -/
theorem c9_calibration_mutates_argument (log10p : α → α) (pi absCalib : α)
    (val : List (FVal α)) (rng : Option (List (FVal α))) :
    (∀ i : ℕ, val[i]? = some (FVal.num 0) →
        (calibration log10p pi absCalib val rng).1[i]? = some FVal.nan)
    ∧ (∀ (i : ℕ) (v : FVal α), val[i]? = some v → v ≠ FVal.num 0 →
        (calibration log10p pi absCalib val rng).1[i]? = some v)
    ∧ ((∃ i : ℕ, val[i]? = some (FVal.num 0)) →
        (calibration log10p pi absCalib val rng).1 ≠ val) := by
  refine ⟨?_, ?_, ?_⟩
  · intro i h0
    simp only [calibration, List.getElem?_map, h0, Option.map_some']
    simp [FVal.zeroToNan]
  · intro i v hv hvne
    simp only [calibration, List.getElem?_map, hv, Option.map_some']
    cases v with
    | num x =>
        have : x ≠ 0 := by
          intro hx
          exact hvne (by rw [hx])
        simp [FVal.zeroToNan, this]
    | nan => simp [FVal.zeroToNan]
    | neginf => simp [FVal.zeroToNan]
  · rintro ⟨i, h0⟩ heq
    have h1 : (calibration log10p pi absCalib val rng).1[i]? = some FVal.nan := by
      simp only [calibration, List.getElem?_map, h0, Option.map_some']
      simp [FVal.zeroToNan]
    rw [heq, h0] at h1
    exact FVal.noConfusion (Option.some_inj.mp h1)

/-- Witness for C9 at a concrete input: the caller-visible state of
`[0, 3]` after calibration has `nan` at index `0`, keeps `3` at index `1`,
and differs from the original array. -/
theorem c9_calibration_mutates_argument_witness :
    (calibration (α := ℚ) (fun x => x) 0 5 [FVal.num 0, FVal.num 3] none).1[0]?
        = some FVal.nan
    ∧ (calibration (α := ℚ) (fun x => x) 0 5 [FVal.num 0, FVal.num 3] none).1[1]?
        = some (FVal.num 3)
    ∧ (calibration (α := ℚ) (fun x => x) 0 5 [FVal.num 0, FVal.num 3] none).1
        ≠ [FVal.num 0, FVal.num 3] :=
  ⟨(c9_calibration_mutates_argument (fun x => x) 0 5 [FVal.num 0, FVal.num 3] none).1
      0 (by decide),
   (c9_calibration_mutates_argument (fun x => x) 0 5 [FVal.num 0, FVal.num 3] none).2.1
      1 (FVal.num 3) (by decide) (by decide),
   (c9_calibration_mutates_argument (fun x => x) 0 5 [FVal.num 0, FVal.num 3] none).2.2
      ⟨0, by decide⟩⟩

end ClaimC9

section ClaimC2

variable {α : Type} [LinearOrderedField α]

/-- Claim C2, counterexample: the claim states that the final amplitude is
missing exactly where the calibrated value `v` satisfies `v ≤ -200` or
`v > 10`, and in particular that `v = -200` exactly is screened to
missing.  The code screens with the strict comparison `pdb < -200`
(`utils.py` line 160), so at `v = -200` — which satisfies `v ≤ -200` — the
amplitude is an ordinary number, not `nan`. -/
theorem c2_counterexample_minus200 :
    ((-200 : ℚ) ≤ -200)
    ∧ (srfAmp (α := ℚ) (fun x => x) [FVal.num (-200)])[0]? ≠ some FVal.nan := by
  constructor
  · decide
  · decide

/-- Claim C2 (corrected): in the amplitude table produced by the screening
and conversion of `get_srf`, an index whose calibrated decibel value is
the number `v` is missing iff `v < -200` (strictly — `v = -200` exactly is
kept) or `v > 10`; indices whose calibrated value is already `nan` or is
`-inf` are missing as well. -/
theorem c2_band_screen_amended (exp10 : α → α) (pdb : List (FVal α)) (i : ℕ) :
    (∀ v : α, pdb[i]? = some (FVal.num v) →
        ((srfAmp exp10 pdb)[i]? = some FVal.nan ↔ (v < -200 ∨ 10 < v)))
    ∧ (pdb[i]? = some FVal.nan → (srfAmp exp10 pdb)[i]? = some FVal.nan)
    ∧ (pdb[i]? = some FVal.neginf → (srfAmp exp10 pdb)[i]? = some FVal.nan) := by
  refine ⟨?_, ?_, ?_⟩
  · intro v hv
    simp only [srfAmp, bandScreen, List.getElem?_map, hv, Option.map_some']
    by_cases h1 : v < -200
    · simp [FVal.ltc, FVal.gtc, FVal.amp10, h1]
    · by_cases h2 : 10 < v
      · simp [FVal.ltc, FVal.gtc, FVal.amp10, h1, h2]
      · simp [FVal.ltc, FVal.gtc, FVal.amp10, h1, h2]
  · intro hv
    simp only [srfAmp, bandScreen, List.getElem?_map, hv, Option.map_some']
    simp [FVal.ltc, FVal.gtc, FVal.amp10]
  · intro hv
    simp only [srfAmp, bandScreen, List.getElem?_map, hv, Option.map_some']
    simp [FVal.ltc, FVal.gtc, FVal.amp10]

/-- Witness for the amended C2 at a concrete input: the in-band value `5`
is not screened. -/
theorem c2_band_screen_witness :
    (srfAmp (α := ℚ) (fun x => x) [FVal.num 5])[0]? = some FVal.nan
      ↔ ((5 : ℚ) < -200 ∨ (10 : ℚ) < 5) :=
  (c2_band_screen_amended (fun x => x) [FVal.num 5] 0).1 5 (by decide)

end ClaimC2

section ClaimC1

/-- Claim C1 (code bug): the claim states that every along-track index not
in the pick table holds the value zero, but the output array of `get_pik`
is allocated with `np.empty` (`utils.py` line 76), whose contents are
whatever the allocator left in memory.  Concretely, with a 4-by-2 waveform
matrix of ones, a single pick at frame index `0`, and residual memory
holding `7.0`, the unpicked index `1` holds `7`, not `0`. -/
theorem c1_unpicked_holds_uninitialized_memory :
    get_pik (α := ℚ) 4 2 (fun _ _ => FVal.num 1) [(0, 3)] (fun _ => FVal.num 7)
        = some [FVal.num 1, FVal.num 7]
    ∧ FVal.num (7 : ℚ) ≠ FVal.num 0 := by
  constructor
  · decide
  · decide

end ClaimC1

section ClaimC3

variable {α : Type} [LinearOrderedField α]

/-- Claim C3, counterexample: the claim states that a pick whose window
`[z-2, z+2)` falls outside the waveform matrix bounds produces `nan`.
With 4 delay rows and `z = 3`, the window `[1, 5)` extends past the upper
bound, yet the python slice silently clips to `[1, 4)` and the code
returns the maximum `3` of the clipped window — not `nan`, and not the
maximum of the claimed four-row window. -/
theorem c3_counterexample_upper_clip :
    get_pik (α := ℚ) 4 1 (fun r _ => FVal.num (r : ℚ)) [(0, 3)] (fun _ => FVal.num 0)
        = some [FVal.num 3]
    ∧ ((4 : ℤ) < 3 + 2)
    ∧ FVal.num (3 : ℚ) ≠ FVal.nan := by
  refine ⟨by decide, by decide, by decide⟩

/-- Claim C3 (corrected): for a pick record `(x, z)` with a valid frame
index whose normalised column is not rewritten by a later pick, `get_pik`
assigns to index `x`: the maximum over the full window `[z-2, z+2)` when
that window lies inside the delay axis; `nan` when `z - 2 < 0` (with
`z ≥ -1` as the pick reader guarantees, the normalised python slice is
then empty); the maximum over the clipped window `[z-2, R)` — not `nan` —
when the window overruns only the upper bound; and every index written by
no pick keeps its uninitialised value. -/
theorem c3_window_semantics_amended (R C : ℕ) (mat : ℕ → ℕ → FVal α)
    (picks : List (ℤ × ℤ)) (mem : ℕ → FVal α) (out : List (FVal α))
    (i : ℕ) (x z : ℤ)
    (hp : picks[i]? = some (x, z))
    (hx0 : 0 ≤ x) (hxC : x < (C : ℤ))
    (hlast : ∀ k, i < k → ∀ q : ℤ × ℤ, picks[k]? = some q →
        normIdx C q.1 ≠ some x.toNat)
    (hout : get_pik R C mat picks mem = some out) :
    (0 ≤ z - 2 → z + 2 ≤ (R : ℤ) →
        out[x.toNat]? = some (FVal.maxList ((List.range 4).map
          (fun k => mat ((z - 2).toNat + k) x.toNat))))
    ∧ (z - 2 < 0 → -1 ≤ z → 4 ≤ R → out[x.toNat]? = some FVal.nan)
    ∧ (0 ≤ z - 2 → z - 2 < (R : ℤ) → (R : ℤ) < z + 2 →
        out[x.toNat]? = some (FVal.maxList ((List.range (R - (z - 2).toNat)).map
          (fun k => mat ((z - 2).toNat + k) x.toNat))))
    ∧ (∀ j, j < C → (∀ k : ℕ, ∀ q : ℤ × ℤ, picks[k]? = some q → normIdx C q.1 ≠ some j) →
        out[j]? = some (mem j)) := by
  have hnx : normIdx C x = some x.toNat := by
    unfold normIdx
    rw [if_pos hx0, if_pos hxC]
  have hmain : out[x.toNat]? = some (windowMax R C mat (z - 2) (z + 2) x) := by
    simp only [get_pik, List.zip_map'] at hout
    apply scatter_getElem?_last (i := i) ?_ hnx ?_ ?_ hout
    · rw [List.getElem?_map, hp]
      rfl
    · intro k hk q hq
      rw [List.getElem?_map] at hq
      cases hq2 : picks[k]? with
      | none => rw [hq2] at hq; exact Option.noConfusion hq
      | some q0 =>
          rw [hq2] at hq
          have : q = (q0.1, windowMax R C mat (q0.2 - 2) (q0.2 + 2) q0.1) := by
            simpa using hq.symm
          rw [this]
          exact hlast k hk q0 hq2
    · simp only [List.length_map, List.length_range]
      omega
  refine ⟨?_, ?_, ?_, ?_⟩
  · intro h1 h2
    rw [hmain]
    have hlo : sliceBound R (z - 2) = (z - 2).toNat := by
      unfold sliceBound
      rw [if_neg (by omega)]
      omega
    have hhi : sliceBound R (z + 2) = (z + 2).toNat := by
      unfold sliceBound
      rw [if_neg (by omega)]
      omega
    simp only [windowMax, hnx, hlo, hhi]
    rw [if_pos (by omega)]
    have h4 : (z + 2).toNat - (z - 2).toNat = 4 := by omega
    rw [h4]
  · intro h1 h2 h3
    rw [hmain]
    have hlo : sliceBound R (z - 2) = (R + (z - 2)).toNat := by
      unfold sliceBound
      rw [if_pos (by omega)]
      omega
    have hhi : sliceBound R (z + 2) = (z + 2).toNat := by
      unfold sliceBound
      rw [if_neg (by omega)]
      omega
    simp only [windowMax, hnx, hlo, hhi]
    rw [if_neg (by omega)]
  · intro h1 h2 h3
    rw [hmain]
    have hlo : sliceBound R (z - 2) = (z - 2).toNat := by
      unfold sliceBound
      rw [if_neg (by omega)]
      omega
    have hhi : sliceBound R (z + 2) = R := by
      unfold sliceBound
      rw [if_neg (by omega)]
      omega
    simp only [windowMax, hnx, hlo, hhi]
    rw [if_pos (by omega)]
  · intro j hj hnever
    simp only [get_pik, List.zip_map'] at hout
    have hside : ∀ p ∈ picks.map (fun p => (p.1, windowMax R C mat (p.2 - 2) (p.2 + 2) p.1)),
        normIdx C p.1 ≠ some j := by
      intro q hq
      obtain ⟨k, hk⟩ := List.getElem?_of_mem hq
      rw [List.getElem?_map] at hk
      cases hq2 : picks[k]? with
      | none => rw [hq2] at hk; exact Option.noConfusion hk
      | some q0 =>
          rw [hq2] at hk
          have : q = (q0.1, windowMax R C mat (q0.2 - 2) (q0.2 + 2) q0.1) := by
            simpa using hk.symm
          rw [this]
          exact hnever k q0 hq2
    have huntouched := scatter_getElem?_untouched hside hout
    rw [huntouched, List.getElem?_map, List.getElem?_range hj]
    rfl

/-- Witness for the amended C3 at a concrete input: 6 delay rows, one
column, a single pick `(0, 2)` whose window `[0, 4)` is fully in bounds
and whose value is the window maximum `3`. -/
theorem c3_window_semantics_witness :
    [FVal.num (3 : ℚ)][(0 : ℤ).toNat]? = some (FVal.maxList ((List.range 4).map
        (fun k => FVal.num ((((2 : ℤ) - 2).toNat + k : ℕ) : ℚ)))) :=
  ((c3_window_semantics_amended 6 1 (fun r _ => FVal.num (r : ℚ)) [(0, 2)]
      (fun _ => FVal.num 0) [FVal.num 3] 0 0 2 (by decide) (by decide) (by decide)
      (fun k hk q hq => by
        have hnone : ([((0 : ℤ), (2 : ℤ))] : List (ℤ × ℤ))[k]? = none :=
          List.getElem?_eq_none (by simpa using hk)
        rw [hnone] at hq
        exact Option.noConfusion hq)
      (by decide)).1 (by decide) (by decide))

end ClaimC3

section ClaimC5

variable {α : Type} [LinearOrderedField α]

/-- Claim C5 (confirmed, spec-modelled interpolator): for a telemetry
channel with `M ≥ 2` native samples resampled onto a dense domain of
length `N ≥ 2`, native sample `i` is placed by `np.linspace(0, N-1, M)` at
position `i * (N-1) / (M-1)`, and evaluating the fitted smoothing-free
spline at that position reproduces the native value exactly.  The scipy
spline is external to the repository and is embedded as `splevModel`,
whose defining property is exact interpolation at the nodes, per the
spec. -/
theorem c5_resample_nodes_exact (M N : ℕ) (y : ℕ → α) (i : ℕ)
    (hM : 2 ≤ M) (hN : 2 ≤ N) (hiM : i < M) :
    linspace 0 ((N : α) - 1) M i = (i : α) * ((N : α) - 1) / ((M : α) - 1)
    ∧ splevModel N M y (linspace 0 ((N : α) - 1) M i) = y i := by
  constructor
  · unfold linspace
    rw [zero_add, sub_zero]
  · exact splevModel_node y hM hN hiM

/-- Witness for C5 at a concrete input: two native samples resampled onto
three targets, node `1` sits at position `2` and reproduces its value. -/
theorem c5_resample_nodes_exact_witness :
    (linspace (α := ℚ) 0 (((3 : ℕ) : ℚ) - 1) 2 1
        = ((1 : ℕ) : ℚ) * (((3 : ℕ) : ℚ) - 1) / (((2 : ℕ) : ℚ) - 1))
    ∧ splevModel (α := ℚ) 3 2 (fun j => if j = 0 then 5 else 9)
        (linspace 0 (((3 : ℕ) : ℚ) - 1) 2 1) = 9 :=
  c5_resample_nodes_exact 2 3 (fun j => if j = 0 then 5 else 9) 1
    (by decide) (by decide) (by decide)

end ClaimC5

section ClaimC7

variable {α : Type} [LinearOrderedField α]

lemma get_srf_writes (R C : ℕ) (mat : ℕ → ℕ → FVal α) (picks : List (ℤ × ℤ))
    (mem : ℕ → FVal α) (auxN : AuxNative α) (lonlat2rad : α → α → α)
    (log10p : α → α) (pi : α) (absCalib : α) (exp10 : α → α) (orbit : String) (save : Bool)
    (t : SrfTable α) (w : List WriteEvent)
    (h : get_srf R C mat picks mem auxN lonlat2rad log10p pi absCalib exp10 orbit save
          = some (t, w)) :
    w = if save then [WriteEvent.srf orbit] else [] := by
  cases hpik : get_pik R C mat picks mem with
  | none =>
      simp only [get_srf, hpik] at h
      exact Option.noConfusion h
  | some pik =>
      simp only [get_srf, hpik, Option.some_inj, Prod.mk.injEq] at h
      exact h.2.symm

/-- Claim C7 (confirmed): whenever `get_srf` completes, the aligned track
it returns has exactly one row per along-track index of the orbit's
waveform matrix — every telemetry column, the derived range and the
amplitude column all have length `C = rpb.shape[1]`, no matter how sparse
or empty the pick table is. -/
theorem c7_aligned_track_shape (R C : ℕ) (mat : ℕ → ℕ → FVal α) (picks : List (ℤ × ℤ))
    (mem : ℕ → FVal α) (auxN : AuxNative α) (lonlat2rad : α → α → α)
    (log10p : α → α) (pi : α) (absCalib : α) (exp10 : α → α) (orbit : String) (save : Bool)
    (t : SrfTable α) (w : List WriteEvent)
    (h : get_srf R C mat picks mem auxN lonlat2rad log10p pi absCalib exp10 orbit save
          = some (t, w)) :
    t.aux.lat.length = C ∧ t.aux.lon.length = C ∧ t.aux.radius.length = C
    ∧ t.aux.vtan.length = C ∧ t.aux.vrad.length = C ∧ t.aux.sza.length = C
    ∧ t.aux.pitch.length = C ∧ t.aux.yaw.length = C ∧ t.aux.roll.length = C
    ∧ t.aux.mag.length = C ∧ t.aux.HGAout.length = C ∧ t.aux.HGAin.length = C
    ∧ t.aux.sun_dist.length = C ∧ t.aux.rng.length = C ∧ t.amp.length = C := by
  cases hpik : get_pik R C mat picks mem with
  | none =>
      simp only [get_srf, hpik] at h
      exact Option.noConfusion h
  | some pik =>
      have hpl : pik.length = C := by
        have hsc : scatter C ((List.range C).map (fun j => mem j))
            (List.zip (picks.map Prod.fst)
              (picks.map (fun p => windowMax R C mat (p.2 - 2) (p.2 + 2) p.1)))
            = some pik := by
          simpa [get_pik] using hpik
        have h1 := scatter_length hsc
        simpa using h1
      simp only [get_srf, hpik, Option.some_inj, Prod.mk.injEq] at h
      obtain ⟨ht, hw⟩ := h
      subst ht
      refine ⟨?_, ?_, ?_, ?_, ?_, ?_, ?_, ?_, ?_, ?_, ?_, ?_, ?_, ?_, ?_⟩ <;>
        simp [get_aux, resample, calibration, srfAmp, bandScreen,
          List.length_zipWith, hpl]

end ClaimC7

section ClaimC7Witness

/-- Concrete all-zero native telemetry table with two native samples, used
by concrete pipeline runs over `ℚ`. -/
def auxZeroQ : AuxNative ℚ :=
  ⟨2, fun _ => 0, fun _ => 0, fun _ => 0, fun _ => 0, fun _ => 0, fun _ => 0,
   fun _ => 0, fun _ => 0, fun _ => 0, fun _ => 0, fun _ => 0, fun _ => 0, fun _ => 0⟩

/-- Concrete orbit id used by concrete pipeline runs. -/
def orbitX : String := "7"

/-- Concrete `get_srf` run over `ℚ` with an empty pick table. -/
def srfRunQ : Option (SrfTable ℚ × List WriteEvent) :=
  get_srf 1 1 (fun _ _ => FVal.num 0) [] (fun _ => FVal.num 0) auxZeroQ
    (fun _ _ => 0) (fun x => x) 0 0 (fun x => x) orbitX false

lemma srfRunQ_isSome : srfRunQ.isSome = true := by decide

/-- Witness for C7 at a concrete input: the run `srfRunQ` (along-track
length 1, empty pick table) produces a table whose every column has
length 1. -/
theorem c7_aligned_track_shape_witness :
    (srfRunQ.get srfRunQ_isSome).1.aux.lat.length = 1
    ∧ (srfRunQ.get srfRunQ_isSome).1.aux.lon.length = 1
    ∧ (srfRunQ.get srfRunQ_isSome).1.aux.radius.length = 1
    ∧ (srfRunQ.get srfRunQ_isSome).1.aux.vtan.length = 1
    ∧ (srfRunQ.get srfRunQ_isSome).1.aux.vrad.length = 1
    ∧ (srfRunQ.get srfRunQ_isSome).1.aux.sza.length = 1
    ∧ (srfRunQ.get srfRunQ_isSome).1.aux.pitch.length = 1
    ∧ (srfRunQ.get srfRunQ_isSome).1.aux.yaw.length = 1
    ∧ (srfRunQ.get srfRunQ_isSome).1.aux.roll.length = 1
    ∧ (srfRunQ.get srfRunQ_isSome).1.aux.mag.length = 1
    ∧ (srfRunQ.get srfRunQ_isSome).1.aux.HGAout.length = 1
    ∧ (srfRunQ.get srfRunQ_isSome).1.aux.HGAin.length = 1
    ∧ (srfRunQ.get srfRunQ_isSome).1.aux.sun_dist.length = 1
    ∧ (srfRunQ.get srfRunQ_isSome).1.aux.rng.length = 1
    ∧ (srfRunQ.get srfRunQ_isSome).1.amp.length = 1 :=
  c7_aligned_track_shape 1 1 (fun _ _ => FVal.num 0) [] (fun _ => FVal.num 0) auxZeroQ
    (fun _ _ => 0) (fun x => x) 0 0 (fun x => x) orbitX false
    (srfRunQ.get srfRunQ_isSome).1 (srfRunQ.get srfRunQ_isSome).2
    (Option.some_get srfRunQ_isSome).symm

end ClaimC7Witness

section ClaimC10

variable {α : Type} [LinearOrderedField α]

/-- Claim C10 (confirmed): whenever `inline_rsr` completes, the aligned
track file for the orbit has been persisted — line 201 invokes
`get_srf(orbit, save=True)` unconditionally — while the statistics product
and the plot are written exactly when `inline_rsr`'s own `save` flag is
true. -/
theorem c10_inline_rsr_always_persists_srf {β : Type} (R C : ℕ)
    (mat : ℕ → ℕ → FVal α) (picks : List (ℤ × ℤ)) (mem : ℕ → FVal α)
    (auxN : AuxNative α) (lonlat2rad : α → α → α)
    (log10p : α → α) (pi : α) (absCalib : α) (exp10 : α → α)
    (estim : List (FVal α) → β × List ℕ) (orbit : String) (save : Bool)
    (r : RsrTable α β × List WriteEvent)
    (h : inline_rsr R C mat picks mem auxN lonlat2rad log10p pi absCalib exp10 estim
          orbit save = some r) :
    WriteEvent.srf orbit ∈ r.2
    ∧ (WriteEvent.stats orbit ∈ r.2 ↔ save = true)
    ∧ (WriteEvent.plotImg orbit ∈ r.2 ↔ save = true) := by
  cases hsrf : get_srf R C mat picks mem auxN lonlat2rad log10p pi absCalib exp10
      orbit true with
  | none =>
      simp only [inline_rsr, hsrf] at h
      exact Option.noConfusion h
  | some p =>
      obtain ⟨srfT, w⟩ := p
      have hw : w = [WriteEvent.srf orbit] := by
        simpa using get_srf_writes R C mat picks mem auxN lonlat2rad log10p pi absCalib
          exp10 orbit true srfT w hsrf
      simp only [inline_rsr, hsrf] at h
      rw [← Option.some_inj.mp h, hw]
      cases save with
      | false => simp
      | true => simp

end ClaimC10

section ClaimC10Witness

/-- Concrete `inline_rsr` run over `ℚ` with an empty pick table, a trivial
external estimator, and `save = true`. -/
def rsrRunQ : Option (RsrTable ℚ Unit × List WriteEvent) :=
  inline_rsr 1 1 (fun _ _ => FVal.num 0) [] (fun _ => FVal.num 0) auxZeroQ
    (fun _ _ => 0) (fun x => x) 0 0 (fun x => x) (fun _ => ((), [])) orbitX true

lemma rsrRunQ_isSome : rsrRunQ.isSome = true := by decide

/-- Witness for C10 at a concrete input: the run `rsrRunQ` persists the
aligned-track file, and with `save = true` also the statistics product and
the plot. -/
theorem c10_inline_rsr_persist_witness :
    WriteEvent.srf orbitX ∈ (rsrRunQ.get rsrRunQ_isSome).2
    ∧ (WriteEvent.stats orbitX ∈ (rsrRunQ.get rsrRunQ_isSome).2 ↔ true = true)
    ∧ (WriteEvent.plotImg orbitX ∈ (rsrRunQ.get rsrRunQ_isSome).2 ↔ true = true) :=
  c10_inline_rsr_always_persists_srf 1 1 (fun _ _ => FVal.num 0) [] (fun _ => FVal.num 0)
    auxZeroQ (fun _ _ => 0) (fun x => x) 0 0 (fun x => x) (fun _ => ((), [])) orbitX true
    (rsrRunQ.get rsrRunQ_isSome)
    (Option.some_get rsrRunQ_isSome).symm

end ClaimC10Witness

section ClaimC6

set_option maxHeartbeats 1000000 in
/-- Claim C6 (confirmed): over `ℝ` with `log10 = Real.logb 10` and
`10 ** x = Real.rpow 10 x`, the raw value `1.0` with no range supplied and
`abs_calib = -142.43` calibrates to
`10*log10(1) + (-142.43) + 0 = -142.43` dB exactly; that value survives
the band screening of `get_srf` and converts to the linear amplitude
`10 ^ (-142.43/20) = 10 ^ (-7.1215)`, which is within `10⁻¹⁰` of the
quoted `7.567e-8` (the exact value is `7.5596e-8`). -/
theorem c6_concrete_calibration_scenario :
    (calibration (α := ℝ) (Real.logb 10) Real.pi (-14243/100) [FVal.num 1] none).2
        = [FVal.num (-14243/100)]
    ∧ srfAmp (α := ℝ) (fun t => (10:ℝ) ^ t) [FVal.num (-14243/100)]
        = [FVal.num ((10:ℝ) ^ ((-14243:ℝ)/2000))]
    ∧ |(10:ℝ) ^ ((-14243:ℝ)/2000) - 7567/10^11| < 1/10^10 := by
  refine ⟨?_, ?_, ?_⟩
  · simp only [calibration]
    norm_num [FVal.zeroToNan, FVal.log10, FVal.scalePos, FVal.add, Real.logb_one]
  · simp only [srfAmp, bandScreen]
    norm_num [FVal.ltc, FVal.gtc, FVal.amp10]
  · have t_pos : (0:ℝ) < (10:ℝ) ^ ((-14243:ℝ)/2000) :=
      Real.rpow_pos_of_pos (by norm_num) _
    have hpow : ((10:ℝ) ^ ((-14243:ℝ)/2000)) ^ (2000:ℕ) = ((10:ℝ) ^ (14243:ℕ))⁻¹ := by
      rw [← Real.rpow_natCast ((10:ℝ) ^ ((-14243:ℝ)/2000)) 2000,
        ← Real.rpow_mul (by norm_num)]
      have h1 : (-14243:ℝ)/2000 * ((2000:ℕ):ℝ) = ((-14243:ℤ):ℝ) := by
        push_cast
        norm_num
      rw [h1, Real.rpow_intCast, zpow_neg]
      norm_num
    have hnat1 : (75589:ℕ)^2000 * 10^14243 < 10^24000 := by norm_num
    have hnat2 : (10:ℕ)^20000 < 756^2000 * 10^14243 := by norm_num
    have hcast1 : (75589:ℝ)^2000 * 10^14243 < (10:ℝ)^(24000:ℕ) := by
      have h2 : (((75589:ℕ)^2000 * 10^14243 : ℕ) : ℝ) < (((10:ℕ)^24000 : ℕ) : ℝ) :=
        Nat.cast_lt.mpr hnat1
      push_cast at h2
      exact h2
    have hcast2 : (10:ℝ)^(20000:ℕ) < (756:ℝ)^2000 * 10^14243 := by
      have h2 : (((10:ℕ)^20000 : ℕ) : ℝ) < (((756:ℕ)^2000 * 10^14243 : ℕ) : ℝ) :=
        Nat.cast_lt.mpr hnat2
      push_cast at h2
      exact h2
    have hap : ((75589:ℝ)/10^12) ^ (2000:ℕ) < ((10:ℝ) ^ (14243:ℕ))⁻¹ := by
      rw [div_pow, inv_eq_one_div, div_lt_div_iff₀ (by positivity) (by positivity)]
      calc (75589:ℝ)^2000 * 10^14243 < (10:ℝ)^(24000:ℕ) := hcast1
        _ = 1 * ((10:ℝ)^12)^2000 := by rw [one_mul, ← pow_mul]
    have hbp : ((10:ℝ) ^ (14243:ℕ))⁻¹ < ((756:ℝ)/10^10) ^ (2000:ℕ) := by
      rw [div_pow, inv_eq_one_div, div_lt_div_iff₀ (by positivity) (by positivity)]
      calc (1:ℝ) * ((10:ℝ)^10)^2000 = (10:ℝ)^(20000:ℕ) := by rw [one_mul, ← pow_mul]
        _ < (756:ℝ)^2000 * 10^14243 := hcast2
    have hlow : (75589:ℝ)/10^12 < (10:ℝ) ^ ((-14243:ℝ)/2000) := by
      apply lt_of_pow_lt_pow_left₀ 2000 (le_of_lt t_pos)
      rw [hpow]
      exact hap
    have hupp : (10:ℝ) ^ ((-14243:ℝ)/2000) < (756:ℝ)/10^10 := by
      apply lt_of_pow_lt_pow_left₀ 2000 (by positivity)
      rw [hpow]
      exact hbp
    rw [abs_lt]
    constructor
    · have e1 : (7567:ℝ)/10^11 - 1/10^10 < 75589/10^12 := by norm_num
      linarith
    · have e2 : (756:ℝ)/10^10 < 7567/10^11 + 1/10^10 := by norm_num
      linarith

end ClaimC6

section ClaimC8

/-- Claim C8 (refuted by the `np.empty` bug): two `get_srf` runs on
identical input files — same waveform matrix, pick table, telemetry,
ellipsoid lookup, calibration constants and orbit — can produce different
output tables, because the unpicked entries of the echo array are read
from uninitialised memory (`np.empty`, `utils.py` line 76).  Here the pick
table is empty, the telemetry makes the derived range `1/(8π)` so the
geometric loss vanishes, and the two runs differ only in the residual
memory contents (`0.0` versus `1.0`): the first run's amplitude column is
`[nan]` (zero is screened by calibration) while the second run's entry is
an ordinary number (`10*log10(1) - 142.43 = -142.43` dB is in band). -/
theorem c8_uninitialized_memory_breaks_determinism :
    get_srf (α := ℝ) 4 1 (fun _ _ => FVal.num 0) [] (fun _ => FVal.num 0)
        ⟨2, fun _ => 0, fun _ => 0, fun _ => 1, fun _ => 0, fun _ => 0, fun _ => 0,
         fun _ => 0, fun _ => 0, fun _ => 0, fun _ => 0, fun _ => 0, fun _ => 0,
         fun _ => 0⟩
        (fun _ _ => 1000 - 1/(8*Real.pi)) (Real.logb 10) Real.pi (-14243/100)
        (fun t => (10:ℝ) ^ t) orbitX false
    ≠ get_srf (α := ℝ) 4 1 (fun _ _ => FVal.num 0) [] (fun _ => FVal.num 1)
        ⟨2, fun _ => 0, fun _ => 0, fun _ => 1, fun _ => 0, fun _ => 0, fun _ => 0,
         fun _ => 0, fun _ => 0, fun _ => 0, fun _ => 0, fun _ => 0, fun _ => 0,
         fun _ => 0⟩
        (fun _ _ => 1000 - 1/(8*Real.pi)) (Real.logb 10) Real.pi (-14243/100)
        (fun t => (10:ℝ) ^ t) orbitX false := by
  have hsp : ∀ y : ℕ → ℝ, splevModel 1 2 y 0 = y 0 := by
    intro y
    unfold splevModel
    rw [find?_range_eq_some (i := 0) (by norm_num) ?_ ?_]
    · apply decide_eq_true
      unfold linspace
      norm_num
    · intro j hj
      exact absurd hj (Nat.not_lt_zero j)
  have h8 : (8:ℝ) * Real.pi * (1/(8*Real.pi)) = 1 := by
    rw [mul_one_div]
    exact div_self (by positivity)
  have hrng : (get_aux (α := ℝ) 1
      ⟨2, fun _ => 0, fun _ => 0, fun _ => 1, fun _ => 0, fun _ => 0, fun _ => 0,
       fun _ => 0, fun _ => 0, fun _ => 0, fun _ => 0, fun _ => 0, fun _ => 0,
       fun _ => 0⟩
      (fun _ _ => 1000 - 1/(8*Real.pi))).rng = [1/(8*Real.pi)] := by
    simp only [get_aux]
    simp only [resample, List.range_succ, List.range_zero, List.nil_append,
      List.map_cons, List.map_nil, Nat.cast_zero]
    simp only [hsp]
    simp only [List.zipWith_cons_cons, List.zipWith_nil_right, List.cons.injEq,
      and_true]
    ring
  have hpik0 : get_pik (α := ℝ) 4 1 (fun _ _ => FVal.num 0) [] (fun _ => FVal.num 0)
      = some [FVal.num 0] := by
    simp [get_pik, scatter, List.range_succ]
  have hpik1 : get_pik (α := ℝ) 4 1 (fun _ _ => FVal.num 0) [] (fun _ => FVal.num 1)
      = some [FVal.num 1] := by
    simp [get_pik, scatter, List.range_succ]
  have hgeo : geoLoss (α := ℝ) (Real.logb 10) Real.pi (FVal.num (1/(8*Real.pi)))
      = FVal.num 0 := by
    simp only [geoLoss, FVal.scalePos, FVal.log10]
    rw [h8, if_pos (by norm_num : (0:ℝ) < 1), Real.logb_one]
    norm_num
  have hcal0 : (calibration (α := ℝ) (Real.logb 10) Real.pi (-14243/100)
      [FVal.num 0] (some [FVal.num (1/(8*Real.pi))])).2 = [FVal.nan] := by
    simp only [calibration, List.map_cons, List.map_nil, List.zipWith_cons_cons,
      List.zipWith_nil_right]
    norm_num [FVal.zeroToNan, FVal.log10, FVal.scalePos, FVal.add]
  have hcal1 : (calibration (α := ℝ) (Real.logb 10) Real.pi (-14243/100)
      [FVal.num 1] (some [FVal.num (1/(8*Real.pi))])).2 = [FVal.num (-14243/100)] := by
    simp only [calibration, List.map_cons, List.map_nil, List.zipWith_cons_cons,
      List.zipWith_nil_right, hgeo]
    have hz : FVal.zeroToNan (FVal.num (1:ℝ)) = FVal.num 1 := by
      norm_num [FVal.zeroToNan]
    have hl : FVal.log10 (Real.logb 10) (FVal.num (1:ℝ)) = FVal.num 0 := by
      norm_num [FVal.log10, Real.logb_one]
    rw [hz, hl]
    norm_num [FVal.scalePos, FVal.add]
  have hamp0 : srfAmp (α := ℝ) (fun t => (10:ℝ) ^ t) [FVal.nan] = [FVal.nan] := by
    simp [srfAmp, bandScreen, FVal.ltc, FVal.gtc, FVal.amp10]
  have hamp1 : srfAmp (α := ℝ) (fun t => (10:ℝ) ^ t) [FVal.num (-14243/100)]
      = [FVal.num ((10:ℝ) ^ ((-14243/100 : ℝ)/20))] := by
    simp only [srfAmp, bandScreen]
    norm_num [FVal.ltc, FVal.gtc, FVal.amp10]
  intro h
  simp only [get_srf, hpik0, hpik1, hrng, List.map_cons, List.map_nil] at h
  rw [hcal0, hcal1, hamp0, hamp1] at h
  simp only [Option.some_inj, Prod.mk.injEq, SrfTable.mk.injEq, List.cons.injEq,
    and_true, true_and] at h
  exact FVal.noConfusion h

end ClaimC8
